import Mathlib

/-!
Verification of the enchante probe engine against its specification.

The Go sources embedded here are:
* `internal/config/config.go` — the configuration data model,
* `internal/auth/auth.go` — `GetAuthHeader` and `getOAuthToken`,
* `internal/probe/probe.go` — `RunProbe`, `makeRequest`, `getHeadersForEndpoint`.

Machine integers are modelled as `Nat`/`Int`, Go maps as association lists
with last-write-wins assignment, and the network as explicit oracle
parameters describing the observable outcome of each HTTP exchange.
-/

namespace Enchante

/-! ### Go `map[string]string`, modelled as an association list -/

/-- `m[k] = v` on a Go map: replace the binding if the key is present,
otherwise append a fresh binding. -/
def mapSet (m : List (String × String)) (k v : String) : List (String × String) :=
  match m with
  | [] => [(k, v)]
  | (k', v') :: rest => if k' = k then (k, v) :: rest else (k', v') :: mapSet rest k v

/-- Go map lookup (first matching binding). -/
def mapGet (m : List (String × String)) (k : String) : Option String :=
  match m with
  | [] => none
  | (k', v') :: rest => if k' = k then some v' else mapGet rest k

/-- `headers := make(map); for k, v := range src { headers[k] = v }`. -/
def copyHeaders (m : List (String × String)) : List (String × String) :=
  m.foldl (fun acc kv => mapSet acc kv.1 kv.2) []

/-! ### Configuration data model (`internal/config/config.go`) -/

/-- `APIKeyAuth` from config.go. -/
structure APIKeyAuth where
  header : String
  value : String
deriving DecidableEq

/-- `BasicAuth` from config.go. -/
structure BasicAuth where
  username : String
  password : String
deriving DecidableEq

/-- `OAuth2Auth` from config.go. -/
structure OAuth2Auth where
  tokenURL : String
  clientID : String
  clientSecret : String
  grantType : String
  username : String
  password : String
  scope : String
deriving DecidableEq

/-- `AuthConfig` from config.go: `Enabled` plus a `Type` string selecting
which of the variant payloads is active. -/
structure AuthConfig where
  enabled : Bool
  type : String
  apiKey : APIKeyAuth
  basic : BasicAuth
  oauth2 : OAuth2Auth
deriving DecidableEq

/-- `Endpoint` from config.go: URL, method, optional body, optional static
headers, optional per-endpoint auth override (`nil` pointer = `none`). -/
structure Endpoint where
  url : String
  method : String
  body : String
  headers : List (String × String)
  authConfig : Option AuthConfig
deriving DecidableEq

/-- `Delay` from config.go. -/
structure Delay where
  enabled : Bool
  type : String
  min : Int
  max : Int
  fixed : Int
deriving DecidableEq

/-- `ProbingConfig` from config.go. -/
structure ProbingConfig where
  concurrentRequests : Nat
  totalRequests : Nat
  requestTimeoutMS : Int
  delayBetween : Delay
  endpoints : List Endpoint
deriving DecidableEq

/-- `Config` from config.go. -/
structure Config where
  auth : AuthConfig
  probingConfig : ProbingConfig
deriving DecidableEq

/-! ### Base64 (Go `encoding/base64` `StdEncoding`) -/

/-- The standard base64 alphabet. -/
def base64Alphabet : List Char :=
  "ABCDEFGHIJKLMNOPQRSTUVWXYZabcdefghijklmnopqrstuvwxyz0123456789+/".toList

/-- The character for a 6-bit group. -/
def b64Char (n : Nat) : Char := base64Alphabet.getD n 'A'

/-- Base64 (standard, padded) encoding of a byte list. -/
def base64EncodeBytes : List Nat → String
  | [] => ""
  | [b1] =>
      String.mk [b64Char (b1 / 4), b64Char (b1 % 4 * 16)] ++ "=="
  | [b1, b2] =>
      String.mk [b64Char (b1 / 4), b64Char (b1 % 4 * 16 + b2 / 16),
        b64Char (b2 % 16 * 4)] ++ "="
  | b1 :: b2 :: b3 :: rest =>
      String.mk [b64Char (b1 / 4), b64Char (b1 % 4 * 16 + b2 / 16),
        b64Char (b2 % 16 * 4 + b3 / 64), b64Char (b3 % 64)] ++
        base64EncodeBytes rest

/-- UTF-8 bytes of one character (Go `[]byte(string)` is UTF-8). -/
def charUTF8Bytes (c : Char) : List Nat :=
  let n := c.toNat
  if n < 128 then [n]
  else if n < 2048 then [192 + n / 64, 128 + n % 64]
  else if n < 65536 then [224 + n / 4096, 128 + n / 64 % 64, 128 + n % 64]
  else [240 + n / 262144, 128 + n / 4096 % 64, 128 + n / 64 % 64, 128 + n % 64]

/-- UTF-8 bytes of a string. -/
def stringBytes (s : String) : List Nat :=
  s.data.foldr (fun c acc => charUTF8Bytes c ++ acc) []

/-! ### AuthResolver (`internal/auth/auth.go`) -/

/-- A JSON value as far as `getOAuthToken` inspects it: the Go code only
distinguishes string values (`result["access_token"].(string)`) from
everything else. -/
inductive JSONValue where
  | str (s : String)
  | nonString
deriving DecidableEq

/-- Lookup a field of a parsed JSON object. -/
def jsonLookup (fields : List (String × JSONValue)) (k : String) : Option JSONValue :=
  match fields with
  | [] => none
  | (k', v) :: rest => if k' = k then some v else jsonLookup rest k

/-- The body of the token server's response, as observed by the client:
either unreadable, unparsable JSON, or a parsed JSON object. -/
inductive TokenBody where
  | readError
  | unparsable
  | jsonObject (fields : List (String × JSONValue))
deriving DecidableEq

/-- Observable outcome of the HTTP POST to the token endpoint. -/
inductive TokenHTTPOutcome where
  | constructionError
  | transportError
  | response (statusCode : Int) (body : TokenBody)
deriving DecidableEq

/-- The request `getOAuthToken` constructs and sends. -/
structure TokenRequest where
  method : String
  url : String
  body : String
  contentType : String
deriving DecidableEq

/-- Error causes of `getOAuthToken`, one per early return in the Go code. -/
inductive OAuthError where
  | createRequestFailed
  | requestFailed
  | badStatus (status : Int)
  | readFailed
  | parseFailed
  | tokenNotFound
deriving DecidableEq

/-- The form body built by `getOAuthToken` via `fmt.Sprintf`: all six
fields are always written, empty-valued when unset. -/
def oauthFormData (auth : OAuth2Auth) : String :=
  "client_id=" ++ auth.clientID ++ "&client_secret=" ++ auth.clientSecret ++
  "&username=" ++ auth.username ++ "&password=" ++ auth.password ++
  "&grant_type=" ++ auth.grantType ++ "&scope=" ++ auth.scope

/-- The token request: POST to `TokenURL` with the form body and the
form-urlencoded content type. -/
def oauthTokenRequest (auth : OAuth2Auth) : TokenRequest :=
  ⟨"POST", auth.tokenURL, oauthFormData auth, "application/x-www-form-urlencoded"⟩

/-- The body-handling tail of `getOAuthToken`: `io.ReadAll`,
`json.Unmarshal`, then `result["access_token"].(string)`. -/
def tokenFromBody : TokenBody → Except OAuthError String
  | .readError => .error .readFailed
  | .unparsable => .error .parseFailed
  | .jsonObject fields =>
    match jsonLookup fields "access_token" with
    | some (.str token) => .ok token
    | _ => .error .tokenNotFound

/-- The outcome classification of `getOAuthToken`: transport failure,
then the `resp.StatusCode != 200` check, then the body handling. -/
def getOAuthTokenResult : TokenHTTPOutcome → Except OAuthError String
  | .constructionError => .error .createRequestFailed
  | .transportError => .error .requestFailed
  | .response status body =>
    if status ≠ 200 then .error (.badStatus status)
    else tokenFromBody body

/-- `getOAuthToken` from auth.go. `fetch` is the network oracle giving the
token server's observable behaviour on the constructed request. -/
def getOAuthToken (auth : OAuth2Auth) (fetch : TokenRequest → TokenHTTPOutcome) :
    Except OAuthError String :=
  getOAuthTokenResult (fetch (oauthTokenRequest auth))

/-- Errors of `GetAuthHeader`: an OAuth2 failure passed through, or the
`default` branch for an unsupported auth type. -/
inductive AuthError where
  | oauth (e : OAuthError)
  | unsupportedAuthType (t : String)
deriving DecidableEq

/-- `GetAuthHeader` from auth.go: switch on `authConfig.Type`. -/
def GetAuthHeader (authConfig : AuthConfig) (fetch : TokenRequest → TokenHTTPOutcome) :
    Except AuthError (String × String) :=
  if !authConfig.enabled then .ok ("", "")
  else if authConfig.type = "api_key" then
    .ok (authConfig.apiKey.header, authConfig.apiKey.value)
  else if authConfig.type = "basic" then
    .ok ("Authorization", "Basic " ++
      base64EncodeBytes (stringBytes
        (authConfig.basic.username ++ ":" ++ authConfig.basic.password)))
  else if authConfig.type = "oauth2" then
    match getOAuthToken authConfig.oauth2 fetch with
    | .error e => .error (.oauth e)
    | .ok token => .ok ("Authorization", "Bearer " ++ token)
  else .error (.unsupportedAuthType authConfig.type)

/-! ### Header resolution (`getHeadersForEndpoint` in probe.go) -/

/-- The fixed identifying User-Agent value set by `getHeadersForEndpoint`. -/
def userAgentValue : String := "Mozilla/5.0 (compatible; EnchanteBot/1.0)"

/-- `authConfig := endpoint.AuthConfig; if authConfig == nil { authConfig = globalAuth }`:
the endpoint's own auth config when present, else the global one. -/
def effectiveAuthConfig (endpoint : Endpoint) (globalAuth : AuthConfig) : AuthConfig :=
  match endpoint.authConfig with
  | none => globalAuth
  | some a => a

/-- `getHeadersForEndpoint` from probe.go: copy the endpoint's static
headers, pick the endpoint's own auth config when present (falling back to
the global one), add the resolved auth header when auth is enabled, then
always set the fixed User-Agent last. -/
def getHeadersForEndpoint (endpoint : Endpoint) (globalAuth : AuthConfig)
    (fetch : TokenRequest → TokenHTTPOutcome) :
    Except AuthError (List (String × String)) :=
  let headers := copyHeaders endpoint.headers
  let authConfig := effectiveAuthConfig endpoint globalAuth
  if authConfig.enabled then
    match GetAuthHeader authConfig fetch with
    | .error e => .error e
    | .ok (authHeader, authValue) =>
      let headers := if authHeader ≠ "" then mapSet headers authHeader authValue else headers
      .ok (mapSet headers "User-Agent" userAgentValue)
  else
    .ok (mapSet headers "User-Agent" userAgentValue)

/-! ### Request execution (`makeRequest` in probe.go) -/

/-- Observable events of one `makeRequest` call, in program order. -/
inductive ReqEvent where
  | slept (ms : Int)
  | timerStarted
  | sampleEmitted (elapsed : Nat)
deriving DecidableEq

/-- Error causes of `makeRequest`, one per early return in the Go code. -/
inductive ProbeError where
  | createRequestFailed
  | requestFailed
  | statusCode (code : Int)
deriving DecidableEq

/-- Observable outcome of sending the probe request: construction failure,
transport failure, or a response with a status code and the elapsed time
read from the clock when the response arrived. -/
inductive HTTPOutcome where
  | constructionError
  | transportError
  | response (statusCode : Int) (elapsed : Nat)
deriving DecidableEq

/-- Go `rand.Intn(n)`: a value in `[0, n)`; `none` models the panic when
`n ≤ 0`. `randSeed` stands for the PRNG draw. -/
def randIntn (n : Int) (randSeed : Nat) : Option Int :=
  if n ≤ 0 then none else some ((randSeed : Int) % n)

/-- The delay block at the top of `makeRequest`:
`if delay.Enabled { if random { sleep(Intn(Max-Min)+Min) } else { sleep(Fixed) } }`.
Returns the sleep events performed, `none` on a `rand.Intn` panic. -/
def delaySleepEvents (delay : Delay) (randSeed : Nat) : Option (List ReqEvent) :=
  if delay.enabled then
    if delay.type = "random" then
      match randIntn (delay.max - delay.min) randSeed with
      | none => none
      | some r => some [.slept (r + delay.min)]
    else some [.slept delay.fixed]
  else some []

/-- The HTTP request built by `makeRequest`: method and URL from the
endpoint, no payload for an empty body, and the merged headers applied
via `req.Header.Set`. -/
structure HTTPRequest where
  method : String
  url : String
  body : Option String
  headers : List (String × String)
deriving DecidableEq

/-- Request construction inside `makeRequest`. -/
def buildRequest (endpoint : Endpoint) (headers : List (String × String)) : HTTPRequest :=
  ⟨endpoint.method, endpoint.url,
    if endpoint.body ≠ "" then some endpoint.body else none,
    copyHeaders headers⟩

/-- The samples sent to the results channel during a trace. -/
def emittedSamples (events : List ReqEvent) : List Nat :=
  events.filterMap (fun e =>
    match e with
    | .sampleEmitted d => some d
    | _ => none)

/-- `makeRequest` from probe.go: apply the delay, start the clock, build
and send the request (`outcome` is the network oracle for this send), then
classify: an error return emits no sample, a status `< 400` sends the
elapsed time to the results channel and returns nil. `none` models the
`rand.Intn` panic in the delay block. -/
def makeRequest (delay : Delay) (randSeed : Nat) (outcome : HTTPOutcome) :
    Option (List ReqEvent × Except ProbeError Nat) :=
  match delaySleepEvents delay randSeed with
  | none => none
  | some sleepEvents =>
    let events := sleepEvents ++ [.timerStarted]
    match outcome with
    | .constructionError => some (events, .error .createRequestFailed)
    | .transportError => some (events, .error .requestFailed)
    | .response status elapsed =>
      if status ≥ 400 then some (events, .error (.statusCode status))
      else some (events ++ [.sampleEmitted elapsed], .ok elapsed)

/-! ### Dispatcher (the job-queue goroutine in `RunProbe`) -/

/-- Whether the dispatcher's `select` observes `ctx.Done()` at enqueue
attempt `step`: the context is cancelled from attempt `k` onward
(`cancelAt = some k`), or never (`none`). -/
def cancelObserved (cancelAt : Option Nat) (step : Nat) : Bool :=
  match cancelAt with
  | none => false
  | some k => decide (k ≤ step)

/-- The inner dispatcher loop over the endpoint list: at each attempt
either observe cancellation and return, or enqueue the endpoint. Returns
the enqueued jobs, the next attempt index, and whether it was cancelled. -/
def dispatchInner (cancelAt : Option Nat) :
    List Endpoint → Nat → List Endpoint × Nat × Bool
  | [], step => ([], step, false)
  | e :: rest, step =>
    if cancelObserved cancelAt step then ([], step, true)
    else
      let (tail, step', cancelled) := dispatchInner cancelAt rest (step + 1)
      (e :: tail, step', cancelled)

/-- The outer dispatcher loop over the repetition index. On cancellation
it returns immediately; after full enumeration it closes the job queue
(second component `true`). -/
def dispatchReps (cancelAt : Option Nat) (endpoints : List Endpoint) :
    Nat → Nat → List Endpoint × Bool
  | 0, _ => ([], true)
  | r + 1, step =>
    match dispatchInner cancelAt endpoints step with
    | (sent, step', false) =>
      let (tail, closed) := dispatchReps cancelAt endpoints r step'
      (sent ++ tail, closed)
    | (sent, _, true) => (sent, false)

/-- Result of the dispatcher goroutine: the jobs enqueued in order, and
whether `close(jobs)` was reached. -/
structure DispatchResult where
  enqueued : List Endpoint
  queueClosed : Bool
deriving DecidableEq

/-- The job-queue goroutine of `RunProbe`: `TotalRequests` repetitions of
the endpoint list, stopping at the first observed cancellation. -/
def runDispatcher (cfg : Config) (cancelAt : Option Nat) : DispatchResult :=
  let (sent, closed) :=
    dispatchReps cancelAt cfg.probingConfig.endpoints cfg.probingConfig.totalRequests 0
  ⟨sent, closed⟩

/-! ### Worker pool and result aggregation (`RunProbe`) -/

/-- The channel capacities chosen at the top of `RunProbe`
(`make(chan …, cfg.ProbingConfig.TotalRequests)`). -/
def resultsChannelCapacity (cfg : Config) : Nat := cfg.probingConfig.totalRequests

/-- The maximum possible number of jobs of a run. -/
def maxJobCount (cfg : Config) : Nat :=
  cfg.probingConfig.totalRequests * cfg.probingConfig.endpoints.length

/-- The mutex-guarded success/failure counters. -/
structure Counters where
  successCount : Nat
  failureCount : Nat
deriving DecidableEq

/-- Per-job environment: the token-server oracle for auth resolution, the
PRNG draw for the delay, and the network outcome of the probe request. -/
structure JobEnv where
  fetch : TokenRequest → TokenHTTPOutcome
  randSeed : Nat
  outcome : HTTPOutcome

/-- The worker-loop body for one dequeued job: resolve headers (a failure
counts the job as failed and moves on), otherwise run `makeRequest` and
count success or failure. Returns whether the job succeeded and the
samples it emitted; `none` models a panic inside `makeRequest`. -/
def processJob (cfg : Config) (endpoint : Endpoint) (env : JobEnv) :
    Option (Bool × List Nat) :=
  match getHeadersForEndpoint endpoint cfg.auth env.fetch with
  | .error _ => some (false, [])
  | .ok _ =>
    match makeRequest cfg.probingConfig.delayBetween env.randSeed env.outcome with
    | none => none
    | some (events, .error _) => some (false, emittedSamples events)
    | some (events, .ok _) => some (true, emittedSamples events)

/-- Processing of a job list by the pool, folded sequentially: counter
updates are mutex-guarded and each job is dequeued by exactly one worker,
so the final counters and the multiset of samples do not depend on the
interleaving. `envs i` is the environment drawn by the `i`-th job. -/
def processJobsFrom (cfg : Config) (envs : Nat → JobEnv) :
    List Endpoint → Nat → Counters → List Nat → Option (Counters × List Nat)
  | [], _, c, samples => some (c, samples)
  | e :: rest, i, c, samples =>
    match processJob cfg e (envs i) with
    | none => none
    | some (true, s) =>
      processJobsFrom cfg envs rest (i + 1)
        ⟨c.successCount + 1, c.failureCount⟩ (samples ++ s)
    | some (false, s) =>
      processJobsFrom cfg envs rest (i + 1)
        ⟨c.successCount, c.failureCount + 1⟩ (samples ++ s)

/-- Processing of a whole job list starting from zeroed counters. -/
def processJobs (cfg : Config) (jobs : List Endpoint) (envs : Nat → JobEnv) :
    Option (Counters × List Nat) :=
  processJobsFrom cfg envs jobs 0 ⟨0, 0⟩ []

/-- The aggregation loop `for duration := range results`:
`totalDuration += duration; count++`. -/
def aggregateSamples (samples : List Nat) : Nat × Nat :=
  samples.foldl (fun acc d => (acc.1 + d, acc.2 + 1)) (0, 0)

/-- The final report of `RunProbe`: the summary line with the average when
`count > 0`, otherwise the "No requests were successful" warning — no
average and no division in that branch. -/
inductive RunReport where
  | completed (totalSamples successCount failureCount avgResponseTime : Nat)
  | noSuccessfulRequests (failureCount : Nat)
deriving DecidableEq

/-- The finalization at the end of `RunProbe`. -/
def finalReport (samples : List Nat) (c : Counters) : RunReport :=
  let (totalDuration, count) := aggregateSamples samples
  if count > 0 then
    .completed count c.successCount c.failureCount (totalDuration / count)
  else
    .noSuccessfulRequests c.failureCount

/-- A full run without cancellation: the dispatcher enumerates everything,
the workers drain the whole queue, the aggregator consumes the samples. -/
def runProbeNoCancel (cfg : Config) (envs : Nat → JobEnv) :
    Option (List Endpoint × Counters × List Nat × RunReport) :=
  let d := runDispatcher cfg none
  match processJobs cfg d.enqueued envs with
  | none => none
  | some (c, samples) => some (d.enqueued, c, samples, finalReport samples c)

/-! ### Helper lemmas -/

theorem mapGet_mapSet_self (m : List (String × String)) (k v : String) :
    mapGet (mapSet m k v) k = some v := by
  induction m with
  | nil => simp [mapSet, mapGet]
  | cons hd tl ih =>
    rcases hd with ⟨k', v'⟩
    by_cases h : k' = k
    · simp [mapSet, mapGet, h]
    · simp [mapSet, mapGet, h, ih]

theorem mapGet_mapSet_ne (m : List (String × String)) (k v k' : String)
    (h : k' ≠ k) : mapGet (mapSet m k v) k' = mapGet m k' := by
  induction m with
  | nil => simp [mapSet, mapGet, Ne.symm h]
  | cons hd tl ih =>
    rcases hd with ⟨k₀, v₀⟩
    by_cases h₀ : k₀ = k
    · subst h₀
      simp [mapSet, mapGet, Ne.symm h]
    · simp [mapSet, mapGet, h₀, ih]

theorem mapGet_eq_none (m : List (String × String)) (k : String)
    (h : k ∉ m.map Prod.fst) : mapGet m k = none := by
  induction m with
  | nil => rfl
  | cons hd tl ih =>
    rcases hd with ⟨k₀, v₀⟩
    simp only [List.map_cons, List.mem_cons, not_or] at h
    simp [mapGet, Ne.symm h.1, ih h.2]

theorem foldl_mapSet_get (m : List (String × String)) :
    ∀ (acc : List (String × String)) (k : String),
    (m.map Prod.fst).Nodup →
    mapGet (m.foldl (fun a kv => mapSet a kv.1 kv.2) acc) k =
      match mapGet m k with
      | some v => some v
      | none => mapGet acc k := by
  induction m with
  | nil => intro acc k _; simp [mapGet]
  | cons hd tl ih =>
    intro acc k hnodup
    rcases hd with ⟨k₀, v₀⟩
    simp only [List.map_cons, List.nodup_cons] at hnodup
    rcases hnodup with ⟨hk₀, htl⟩
    simp only [List.foldl_cons]
    rw [ih (mapSet acc k₀ v₀) k htl]
    by_cases h : k₀ = k
    · subst h
      rw [mapGet_eq_none tl k₀ hk₀]
      simp [mapGet, mapGet_mapSet_self]
    · cases hmg : mapGet tl k <;>
        simp [mapGet, h, hmg, mapGet_mapSet_ne acc k₀ v₀ k (Ne.symm h)]

theorem copyHeaders_get (m : List (String × String)) (k : String)
    (hnodup : (m.map Prod.fst).Nodup) :
    mapGet (copyHeaders m) k = mapGet m k := by
  unfold copyHeaders
  rw [foldl_mapSet_get m [] k hnodup]
  cases h : mapGet m k <;> simp [mapGet]

/-! ### Concrete fixtures used by witnesses -/

/-- An all-empty OAuth2 payload. -/
def emptyOAuth2 : OAuth2Auth := ⟨"", "", "", "", "", "", ""⟩

/-- A disabled per-endpoint auth policy. -/
def disabledAuthW : AuthConfig := ⟨false, "", ⟨"", ""⟩, ⟨"", ""⟩, emptyOAuth2⟩

/-- An enabled global api-key policy. -/
def apiKeyAuthW : AuthConfig := ⟨true, "api_key", ⟨"X-API-Key", "k1"⟩, ⟨"u", "p"⟩, emptyOAuth2⟩

/-- A token-server oracle whose every exchange fails at transport level. -/
def fetchNoNetwork : TokenRequest → TokenHTTPOutcome := fun _ => .transportError

/-! ### Claims -/

/-- C1: auth resolution uses the endpoint's own AuthPolicy whenever the
endpoint defines one — the result is then independent of the global
policy, and an endpoint-level `disabled` policy suppresses auth entirely —
and consults the global policy only when the endpoint defines none, in
which case it behaves exactly as if the endpoint carried the global
policy itself. -/
theorem auth_precedence_endpoint_overrides_global
    (e : Endpoint) (g g' : AuthConfig) (fetch : TokenRequest → TokenHTTPOutcome) :
    (∀ a, e.authConfig = some a →
      getHeadersForEndpoint e g fetch = getHeadersForEndpoint e g' fetch)
    ∧ (∀ a, e.authConfig = some a → a.enabled = false →
      getHeadersForEndpoint e g fetch =
        .ok (mapSet (copyHeaders e.headers) "User-Agent" userAgentValue))
    ∧ (e.authConfig = none →
      getHeadersForEndpoint e g fetch =
        getHeadersForEndpoint ⟨e.url, e.method, e.body, e.headers, some g⟩ g' fetch) := by
  refine ⟨?_, ?_, ?_⟩
  · intro a ha
    simp [getHeadersForEndpoint, effectiveAuthConfig, ha]
  · intro a ha hdis
    simp [getHeadersForEndpoint, effectiveAuthConfig, ha, hdis]
  · intro ha
    simp [getHeadersForEndpoint, effectiveAuthConfig, ha]

/-- Witness for C1: an endpoint with a disabled override under an enabled
global api-key policy gets no auth header, only the User-Agent. -/
theorem auth_precedence_witness :
    getHeadersForEndpoint ⟨"http://api", "GET", "", [], some disabledAuthW⟩
      apiKeyAuthW fetchNoNetwork = .ok [("User-Agent", userAgentValue)] := by
  have h := (auth_precedence_endpoint_overrides_global
      ⟨"http://api", "GET", "", [], some disabledAuthW⟩ apiKeyAuthW apiKeyAuthW
      fetchNoNetwork).2.1 disabledAuthW rfl rfl
  rw [h]
  rfl

/-- C3: the merged headers are built static-headers-first, then the
resolved auth header (which wins a key collision with a static header),
then the fixed User-Agent applied last, overwriting any User-Agent
already present: the final map maps "User-Agent" to the fixed value,
maps the auth header name to the auth value, and agrees with the static
headers on every other key. -/
theorem header_merge_order
    (e : Endpoint) (g : AuthConfig) (fetch : TokenRequest → TokenHTTPOutcome)
    (hs : List (String × String))
    (hnodup : (e.headers.map Prod.fst).Nodup)
    (hok : getHeadersForEndpoint e g fetch = .ok hs) :
    mapGet hs "User-Agent" = some userAgentValue
    ∧ (∀ h v, GetAuthHeader (effectiveAuthConfig e g) fetch = .ok (h, v) →
        h ≠ "" → h ≠ "User-Agent" → mapGet hs h = some v)
    ∧ (∀ k, k ≠ "User-Agent" →
        (((effectiveAuthConfig e g).enabled = false →
          mapGet hs k = mapGet e.headers k)
        ∧ (∀ h v, GetAuthHeader (effectiveAuthConfig e g) fetch = .ok (h, v) →
            k ≠ h → mapGet hs k = mapGet e.headers k))) := by
  simp only [getHeadersForEndpoint] at hok
  cases hac : (effectiveAuthConfig e g).enabled with
  | false =>
    rw [hac] at hok
    simp only [Bool.false_eq_true, if_false, Except.ok.injEq] at hok
    subst hok
    refine ⟨mapGet_mapSet_self _ _ _, ?_, ?_⟩
    · intro h v hga hne hnua
      have : GetAuthHeader (effectiveAuthConfig e g) fetch = .ok ("", "") := by
        simp [GetAuthHeader, hac]
      rw [this] at hga
      simp only [Except.ok.injEq, Prod.mk.injEq] at hga
      exact absurd hga.1.symm hne
    · intro k hkua
      constructor
      · intro _
        rw [mapGet_mapSet_ne _ _ _ _ hkua]
        exact copyHeaders_get e.headers k hnodup
      · intro h v _ _
        rw [mapGet_mapSet_ne _ _ _ _ hkua]
        exact copyHeaders_get e.headers k hnodup
  | true =>
    rw [hac] at hok
    simp only [if_true] at hok
    cases hga : GetAuthHeader (effectiveAuthConfig e g) fetch with
    | error err =>
      rw [hga] at hok
      cases hok
    | ok pr =>
      rcases pr with ⟨h₀, v₀⟩
      rw [hga] at hok
      simp only [Except.ok.injEq] at hok
      subst hok
      refine ⟨mapGet_mapSet_self _ _ _, ?_, ?_⟩
      · intro h v hga' hne hnua
        simp only [Except.ok.injEq, Prod.mk.injEq] at hga'
        rcases hga' with ⟨hh, hv⟩
        subst hh; subst hv
        rw [mapGet_mapSet_ne _ _ _ _ hnua]
        simp only [ne_eq, hne, not_false_eq_true, if_true]
        exact mapGet_mapSet_self _ _ _
      · intro k hkua
        constructor
        · intro hdis
          exact absurd hdis (by decide)
        · intro h v hga' hkh
          simp only [Except.ok.injEq, Prod.mk.injEq] at hga'
          rcases hga' with ⟨hh, hv⟩
          subst hh; subst hv
          rw [mapGet_mapSet_ne _ _ _ _ hkua]
          by_cases hemp : h₀ = ""
          · simp only [ne_eq, hemp, not_true_eq_false, if_false]
            exact copyHeaders_get e.headers k hnodup
          · simp only [ne_eq, hemp, not_false_eq_true, if_true]
            rw [mapGet_mapSet_ne _ _ _ _ hkh]
            exact copyHeaders_get e.headers k hnodup

/-- Witness for C3: an endpoint whose static headers collide with both
the api-key header and User-Agent; the auth value and the fixed
User-Agent win. -/
theorem header_merge_order_witness :
    mapGet [("X-API-Key", "static"), ("User-Agent", "curl"), ("Accept", "json")]
        "X-API-Key" = some "static"
    ∧ (getHeadersForEndpoint
        ⟨"http://api", "GET", "", [("X-API-Key", "static"), ("User-Agent", "curl"), ("Accept", "json")], none⟩
        apiKeyAuthW fetchNoNetwork).toOption.isSome = true
    ∧ ∀ hs, getHeadersForEndpoint
        ⟨"http://api", "GET", "", [("X-API-Key", "static"), ("User-Agent", "curl"), ("Accept", "json")], none⟩
        apiKeyAuthW fetchNoNetwork = .ok hs →
      mapGet hs "User-Agent" = some userAgentValue
      ∧ mapGet hs "X-API-Key" = some "k1"
      ∧ mapGet hs "Accept" = some "json" := by
  refine ⟨rfl, by decide, ?_⟩
  intro hs hok
  have h := header_merge_order
    ⟨"http://api", "GET", "", [("X-API-Key", "static"), ("User-Agent", "curl"), ("Accept", "json")], none⟩
    apiKeyAuthW fetchNoNetwork hs (by decide) hok
  refine ⟨h.1, ?_, ?_⟩
  · exact h.2.1 "X-API-Key" "k1" (by rfl) (by decide) (by decide)
  · have := (h.2.2 "Accept" (by decide)).2 "X-API-Key" "k1" (by rfl) (by decide)
    rw [this]
    rfl

/-! ### Dispatcher and counter lemmas -/

theorem dispatchInner_none (eps : List Endpoint) :
    ∀ step, dispatchInner none eps step = (eps, step + eps.length, false) := by
  induction eps with
  | nil => intro step; simp [dispatchInner]
  | cons e rest ih =>
    intro step
    simp [dispatchInner, cancelObserved, ih (step + 1)]
    omega

theorem dispatchReps_none (eps : List Endpoint) (r : Nat) :
    ∀ step, dispatchReps none eps r step = ((List.replicate r eps).flatten, true) := by
  induction r with
  | zero => intro step; simp [dispatchReps]
  | succ r ih =>
    intro step
    simp [dispatchReps, dispatchInner_none eps step, ih, List.replicate_succ]

theorem length_flatten_replicate (r : Nat) (l : List Endpoint) :
    ((List.replicate r l).flatten).length = r * l.length := by
  induction r with
  | zero => simp
  | succ r ih => simp [List.replicate_succ, ih, Nat.succ_mul, Nat.add_comm]

theorem processJobsFrom_count (cfg : Config) (envs : Nat → JobEnv) :
    ∀ (jobs : List Endpoint) (i : Nat) (c : Counters) (samples : List Nat)
      (c' : Counters) (samples' : List Nat),
    processJobsFrom cfg envs jobs i c samples = some (c', samples') →
    c'.successCount + c'.failureCount = c.successCount + c.failureCount + jobs.length := by
  intro jobs
  induction jobs with
  | nil =>
    intro i c samples c' samples' h
    simp only [processJobsFrom, Option.some.injEq, Prod.mk.injEq] at h
    rcases h with ⟨h1, _⟩
    subst h1
    simp
  | cons e rest ih =>
    intro i c samples c' samples' h
    simp only [processJobsFrom] at h
    cases hp : processJob cfg e (envs i) with
    | none => rw [hp] at h; cases h
    | some pr =>
      rcases pr with ⟨b, s⟩
      rw [hp] at h
      cases b
      · have hc := ih (i + 1) ⟨c.successCount, c.failureCount + 1⟩ (samples ++ s) c' samples' h
        simp only [List.length_cons] at hc ⊢
        omega
      · have hc := ih (i + 1) ⟨c.successCount + 1, c.failureCount⟩ (samples ++ s) c' samples' h
        simp only [List.length_cons] at hc ⊢
        omega

/-- C2: without cancellation the dispatcher enqueues exactly
`TotalRequests × len(Endpoints)` jobs, in repetition-major order (outer
loop over the repetition index, inner loop over the endpoint list in
configured order), and the final success count plus failure count equals
the number of jobs dispatched. -/
theorem dispatch_count_order_and_counters (cfg : Config) (envs : Nat → JobEnv)
    (c : Counters) (samples : List Nat)
    (hrun : processJobs cfg (runDispatcher cfg none).enqueued envs = some (c, samples)) :
    (runDispatcher cfg none).enqueued =
      (List.replicate cfg.probingConfig.totalRequests cfg.probingConfig.endpoints).flatten
    ∧ (runDispatcher cfg none).enqueued.length =
      cfg.probingConfig.totalRequests * cfg.probingConfig.endpoints.length
    ∧ c.successCount + c.failureCount =
      cfg.probingConfig.totalRequests * cfg.probingConfig.endpoints.length := by
  have hd : runDispatcher cfg none =
      ⟨(List.replicate cfg.probingConfig.totalRequests cfg.probingConfig.endpoints).flatten,
        true⟩ := by
    unfold runDispatcher
    rw [dispatchReps_none]
  have hlen : (runDispatcher cfg none).enqueued.length =
      cfg.probingConfig.totalRequests * cfg.probingConfig.endpoints.length := by
    rw [hd]
    exact length_flatten_replicate _ _
  refine ⟨by rw [hd], hlen, ?_⟩
  have hc := processJobsFrom_count cfg envs (runDispatcher cfg none).enqueued 0 ⟨0, 0⟩ []
    c samples hrun
  rw [hlen] at hc
  simpa using hc

/-- A GET endpoint with no static headers and no auth override. -/
def endpointGetW : Endpoint := ⟨"http://svc/a", "GET", "", [], none⟩

/-- A POST endpoint with no static headers and no auth override. -/
def endpointPostW : Endpoint := ⟨"http://svc/b", "POST", "", [], none⟩

/-- A disabled delay policy. -/
def noDelayW : Delay := ⟨false, "", 0, 0, 0⟩

/-- Two repetitions over two endpoints, auth disabled, no delay. -/
def cfgW : Config := ⟨disabledAuthW, ⟨2, 2, 1000, noDelayW, [endpointGetW, endpointPostW]⟩⟩

/-- A job environment whose probe request succeeds with status 200 in 5ns. -/
def envOkW : JobEnv := ⟨fetchNoNetwork, 0, .response 200 5⟩

/-- Witness for C2: the 2×2 run processes 4 jobs, all successful, and
4 + 0 equals TotalRequests × len(Endpoints). -/
theorem dispatch_count_witness :
    processJobs cfgW (runDispatcher cfgW none).enqueued (fun _ => envOkW)
      = some (⟨4, 0⟩, [5, 5, 5, 5])
    ∧ (Counters.mk 4 0).successCount + (Counters.mk 4 0).failureCount =
      cfgW.probingConfig.totalRequests * cfgW.probingConfig.endpoints.length :=
  ⟨by decide, (dispatch_count_order_and_counters cfgW (fun _ => envOkW) ⟨4, 0⟩
      [5, 5, 5, 5] (by decide)).2.2⟩

theorem emittedSamples_append (a b : List ReqEvent) :
    emittedSamples (a ++ b) = emittedSamples a ++ emittedSamples b :=
  List.filterMap_append a b _

/-- The delay block emits no samples. -/
theorem emittedSamples_delay (delay : Delay) (randSeed : Nat) (l : List ReqEvent)
    (h : delaySleepEvents delay randSeed = some l) : emittedSamples l = [] := by
  unfold delaySleepEvents at h
  cases he : delay.enabled with
  | false =>
    rw [he] at h
    simp only [Bool.false_eq_true, if_false, Option.some.injEq] at h
    subst h; rfl
  | true =>
    rw [he] at h
    simp only [if_true] at h
    by_cases ht : delay.type = "random"
    · rw [if_pos ht] at h
      cases hr : randIntn (delay.max - delay.min) randSeed with
      | none => rw [hr] at h; cases h
      | some r =>
        rw [hr] at h
        simp only [Option.some.injEq] at h
        subst h; rfl
    · rw [if_neg ht] at h
      simp only [Option.some.injEq] at h
      subst h; rfl

/-- C4: for a request that receives a response, a status `< 400` succeeds —
the elapsed duration is emitted as a sample and no error is returned — and
a status `≥ 400` returns an error carrying the status code and emits no
sample; over all outcomes, a sample is emitted iff the job succeeded. -/
theorem status_classification (delay : Delay) (randSeed : Nat)
    (events : List ReqEvent) (res : Except ProbeError Nat) :
    (∀ (status : Int) (elapsed : Nat),
      makeRequest delay randSeed (.response status elapsed) = some (events, res) →
      (status < 400 → res = .ok elapsed ∧ emittedSamples events = [elapsed])
      ∧ (400 ≤ status → res = .error (.statusCode status) ∧ emittedSamples events = []))
    ∧ (∀ outcome, makeRequest delay randSeed outcome = some (events, res) →
      (emittedSamples events ≠ [] ↔ ∃ d, res = .ok d)) := by
  cases hd : delaySleepEvents delay randSeed with
  | none =>
    constructor
    · intro status elapsed h
      unfold makeRequest at h
      rw [hd] at h
      cases h
    · intro outcome h
      unfold makeRequest at h
      rw [hd] at h
      cases h
  | some sleepEvents =>
    have hse := emittedSamples_delay delay randSeed sleepEvents hd
    have hbase : emittedSamples (sleepEvents ++ [ReqEvent.timerStarted]) = [] := by
      unfold emittedSamples at hse ⊢
      rw [List.filterMap_append, hse]
      rfl
    constructor
    · intro status elapsed h
      unfold makeRequest at h
      rw [hd] at h
      by_cases hst : status ≥ 400
      · simp only [hst, if_true, Option.some.injEq, Prod.mk.injEq] at h
        rcases h with ⟨hev, hres⟩
        subst hev; subst hres
        refine ⟨fun hlt => absurd hst (by omega), fun _ => ⟨rfl, hbase⟩⟩
      · simp only [hst, if_false, Option.some.injEq, Prod.mk.injEq] at h
        rcases h with ⟨hev, hres⟩
        subst hev; subst hres
        refine ⟨fun _ => ⟨rfl, ?_⟩, fun hge => absurd hge hst⟩
        rw [List.append_assoc, emittedSamples_append, hse]
        rfl
    · intro outcome h
      unfold makeRequest at h
      rw [hd] at h
      cases outcome with
      | constructionError =>
        simp only [Option.some.injEq, Prod.mk.injEq] at h
        rcases h with ⟨hev, hres⟩
        subst hev; subst hres
        simp [hbase]
      | transportError =>
        simp only [Option.some.injEq, Prod.mk.injEq] at h
        rcases h with ⟨hev, hres⟩
        subst hev; subst hres
        simp [hbase]
      | response status elapsed =>
        by_cases hst : status ≥ 400
        · simp only [hst, if_true, Option.some.injEq, Prod.mk.injEq] at h
          rcases h with ⟨hev, hres⟩
          subst hev; subst hres
          simp [hbase]
        · simp only [hst, if_false, Option.some.injEq, Prod.mk.injEq] at h
          rcases h with ⟨hev, hres⟩
          subst hev; subst hres
          constructor
          · intro _
            exact ⟨elapsed, rfl⟩
          · intro _
            rw [List.append_assoc, emittedSamples_append, hse]
            simp [emittedSamples]

/-- Witness for C4: a 200 response in 7ns yields a success with sample
`[7]`; a 404 response yields a status-code error with no sample. -/
theorem status_classification_witness :
    ((Except.ok 7 : Except ProbeError Nat) = .ok 7
      ∧ emittedSamples [ReqEvent.timerStarted, ReqEvent.sampleEmitted 7] = [7])
    ∧ ((Except.error (ProbeError.statusCode 404) : Except ProbeError Nat)
        = .error (.statusCode 404)
      ∧ emittedSamples [ReqEvent.timerStarted] = []) :=
  ⟨((status_classification noDelayW 0 [.timerStarted, .sampleEmitted 7]
      (.ok 7)).1 200 7 (by rfl)).1 (by decide),
   ((status_classification noDelayW 0 [.timerStarted]
      (.error (.statusCode 404))).1 404 7 (by rfl)).2 (by decide)⟩

/-- An enabled delay produces exactly one sleep event. -/
theorem delaySleepEvents_enabled_shape (delay : Delay) (randSeed : Nat)
    (l : List ReqEvent) (he : delay.enabled = true)
    (h : delaySleepEvents delay randSeed = some l) : ∃ s, l = [ReqEvent.slept s] := by
  unfold delaySleepEvents at h
  rw [he] at h
  simp only [if_true] at h
  by_cases ht : delay.type = "random"
  · rw [if_pos ht] at h
    cases hr : randIntn (delay.max - delay.min) randSeed with
    | none => rw [hr] at h; cases h
    | some r =>
      rw [hr] at h
      simp only [Option.some.injEq] at h
      exact ⟨r + delay.min, h.symm⟩
  · rw [if_neg ht] at h
    simp only [Option.some.injEq] at h
    exact ⟨delay.fixed, h.symm⟩

/-- C9 counterexample: for the enabled random delay with min = max = 5 —
allowed by the claim, which only requires min ≤ max — the code panics in
`rand.Intn(0)` (modelled as `none`): no sleep is performed at all, so no
pre-request sleep duration lies in [5, 5). -/
theorem random_delay_min_eq_max_counterexample :
    delaySleepEvents ⟨true, "random", 5, 5, 0⟩ 0 = none
    ∧ ¬ ∃ (s : Int) (l : List ReqEvent),
        delaySleepEvents ⟨true, "random", 5, 5, 0⟩ 0 = some l
        ∧ ReqEvent.slept s ∈ l ∧ 5 ≤ s ∧ s < 5 := by
  refine ⟨rfl, ?_⟩
  rintro ⟨s, l, hl, -, -, -⟩
  rw [show delaySleepEvents ⟨true, "random", 5, 5, 0⟩ 0 = none from rfl] at hl
  cases hl

/-- C9 (amended): the delay is applied before the latency timer starts
(the sleep event precedes the timer-started event in every completed
`makeRequest` trace); a non-random enabled delay sleeps exactly the
configured fixed milliseconds; a random delay with min < max sleeps a
duration in the half-open interval [min, max) — min = max panics. -/
theorem delay_before_timer_and_bounds (delay : Delay) (randSeed : Nat) :
    (delay.enabled = true → delay.type ≠ "random" →
      delaySleepEvents delay randSeed = some [.slept delay.fixed])
    ∧ (delay.enabled = true → delay.type = "random" → delay.min < delay.max →
      ∃ s, delaySleepEvents delay randSeed = some [.slept s]
        ∧ delay.min ≤ s ∧ s < delay.max)
    ∧ (∀ outcome events res, delay.enabled = true →
      makeRequest delay randSeed outcome = some (events, res) →
      ∃ s rest, events = ReqEvent.slept s :: ReqEvent.timerStarted :: rest) := by
  refine ⟨?_, ?_, ?_⟩
  · intro he ht
    simp [delaySleepEvents, he, ht]
  · intro he ht hlt
    have hpos : (0 : Int) < delay.max - delay.min := by omega
    have hr : randIntn (delay.max - delay.min) randSeed =
        some ((randSeed : Int) % (delay.max - delay.min)) := by
      unfold randIntn
      rw [if_neg (by omega)]
    refine ⟨(randSeed : Int) % (delay.max - delay.min) + delay.min, ?_, ?_, ?_⟩
    · simp [delaySleepEvents, he, ht, hr]
    · have h0 : (0 : Int) ≤ (randSeed : Int) % (delay.max - delay.min) :=
        Int.emod_nonneg _ (by omega)
      omega
    · have hlt2 : (randSeed : Int) % (delay.max - delay.min) < delay.max - delay.min :=
        Int.emod_lt_of_pos _ hpos
      omega
  · intro outcome events res he h
    unfold makeRequest at h
    cases hd : delaySleepEvents delay randSeed with
    | none => rw [hd] at h; cases h
    | some sleepEvents =>
      rw [hd] at h
      obtain ⟨s, hs⟩ := delaySleepEvents_enabled_shape delay randSeed sleepEvents he hd
      subst hs
      cases outcome with
      | constructionError =>
        simp only [Option.some.injEq, Prod.mk.injEq] at h
        exact ⟨s, [], h.1.symm⟩
      | transportError =>
        simp only [Option.some.injEq, Prod.mk.injEq] at h
        exact ⟨s, [], h.1.symm⟩
      | response status elapsed =>
        by_cases hst : status ≥ 400
        · simp only [hst, if_true, Option.some.injEq, Prod.mk.injEq] at h
          exact ⟨s, [], h.1.symm⟩
        · simp only [hst, if_false, Option.some.injEq, Prod.mk.injEq] at h
          exact ⟨s, [.sampleEmitted elapsed], h.1.symm⟩

/-- Witness for C9 (amended): a random delay on [2, 5) with draw 7 sleeps
7 % 3 + 2 = 3 ∈ [2, 5); a fixed delay of 30ms sleeps exactly 30. -/
theorem delay_bounds_witness :
    (∃ s, delaySleepEvents ⟨true, "random", 2, 5, 0⟩ 7 = some [.slept s]
      ∧ (2 : Int) ≤ s ∧ s < 5)
    ∧ delaySleepEvents ⟨true, "fixed", 0, 0, 30⟩ 7 = some [.slept 30] :=
  ⟨(delay_before_timer_and_bounds ⟨true, "random", 2, 5, 0⟩ 7).2.1 rfl rfl (by decide),
   (delay_before_timer_and_bounds ⟨true, "fixed", 0, 0, 30⟩ 7).1 rfl (by decide)⟩

/-- An OAuth2 payload with client credentials only. -/
def oauth2W : OAuth2Auth := ⟨"http://token", "cid", "sec", "client_credentials", "", "", ""⟩

/-- An enabled global oauth2 policy over `oauth2W`. -/
def oauth2AuthCfgW : AuthConfig := ⟨true, "oauth2", ⟨"", ""⟩, ⟨"", ""⟩, oauth2W⟩

/-- A token-server oracle answering 200 with a valid token body. -/
def fetchTokenW : TokenRequest → TokenHTTPOutcome :=
  fun _ => .response 200 (.jsonObject [("access_token", .str "tok42")])

/-- C5 counterexample: a 201 response — a 2xx status — with a parsable
body containing a string access_token is nevertheless rejected, because
the code demands status exactly 200; and the form body of a config with
no username, password or scope still carries those keys, empty-valued,
contradicting "when present". -/
theorem oauth_claim_counterexample :
    getOAuthToken oauth2W
      (fun _ => .response 201 (.jsonObject [("access_token", .str "tok")]))
      = .error (.badStatus 201)
    ∧ oauthFormData oauth2W =
      "client_id=cid&client_secret=sec&username=&password=&grant_type=client_credentials&scope=" := by
  constructor
  · rfl
  · decide

/-- C5 (amended): the resolver performs a synchronous POST to token_url
with a form body always carrying client_id, client_secret, username,
password, grant_type and scope (empty-valued when unset); it succeeds iff
the token server answers status exactly 200 with a parsable JSON object
whose access_token field is a string — any transport failure, any status
other than 200 (2xx included), an unreadable or unparsable body, or a
missing or non-string access_token fails with the specific cause — and on
success the auth header is `Authorization: Bearer <token>`. -/
theorem oauth_token_exchange (auth : OAuth2Auth)
    (fetch : TokenRequest → TokenHTTPOutcome) (cfgA : AuthConfig) :
    (∀ t, getOAuthToken auth fetch = .ok t ↔
      ∃ fields, fetch (oauthTokenRequest auth) = .response 200 (.jsonObject fields)
        ∧ jsonLookup fields "access_token" = some (.str t))
    ∧ (fetch (oauthTokenRequest auth) = .transportError →
        getOAuthToken auth fetch = .error .requestFailed)
    ∧ (∀ status body, fetch (oauthTokenRequest auth) = .response status body →
        status ≠ 200 → getOAuthToken auth fetch = .error (.badStatus status))
    ∧ (fetch (oauthTokenRequest auth) = .response 200 .readError →
        getOAuthToken auth fetch = .error .readFailed)
    ∧ (fetch (oauthTokenRequest auth) = .response 200 .unparsable →
        getOAuthToken auth fetch = .error .parseFailed)
    ∧ (∀ fields, fetch (oauthTokenRequest auth) = .response 200 (.jsonObject fields) →
        (∀ s, jsonLookup fields "access_token" ≠ some (.str s)) →
        getOAuthToken auth fetch = .error .tokenNotFound)
    ∧ (cfgA.enabled = true → cfgA.type = "oauth2" →
        (∀ e, getOAuthToken cfgA.oauth2 fetch = .error e →
          GetAuthHeader cfgA fetch = .error (.oauth e))
        ∧ (∀ t, getOAuthToken cfgA.oauth2 fetch = .ok t →
          GetAuthHeader cfgA fetch = .ok ("Authorization", "Bearer " ++ t))) := by
  refine ⟨?_, ?_, ?_, ?_, ?_, ?_, ?_⟩
  · intro t
    constructor
    · intro h
      unfold getOAuthToken at h
      cases hf : fetch (oauthTokenRequest auth) with
      | constructionError =>
        rw [hf] at h
        simp [getOAuthTokenResult] at h
      | transportError =>
        rw [hf] at h
        simp [getOAuthTokenResult] at h
      | response status body =>
        rw [hf] at h
        simp only [getOAuthTokenResult] at h
        by_cases hst : status = 200
        · subst hst
          rw [if_neg (by simp)] at h
          cases body with
          | readError => simp [tokenFromBody] at h
          | unparsable => simp [tokenFromBody] at h
          | jsonObject fields =>
            refine ⟨fields, rfl, ?_⟩
            simp only [tokenFromBody] at h
            split at h
            · rename_i token heq
              simp only [Except.ok.injEq] at h
              rw [← h]
              exact heq
            · cases h
        · rw [if_pos hst] at h
          cases h
    · rintro ⟨fields, hf, hj⟩
      unfold getOAuthToken
      rw [hf]
      simp [getOAuthTokenResult, tokenFromBody, hj]
  · intro hf
    unfold getOAuthToken
    rw [hf]
    rfl
  · intro status body hf hst
    unfold getOAuthToken
    rw [hf]
    simp [getOAuthTokenResult, hst]
  · intro hf
    unfold getOAuthToken
    rw [hf]
    simp [getOAuthTokenResult, tokenFromBody]
  · intro hf
    unfold getOAuthToken
    rw [hf]
    simp [getOAuthTokenResult, tokenFromBody]
  · intro fields hf hmiss
    unfold getOAuthToken
    rw [hf]
    simp only [getOAuthTokenResult, tokenFromBody, ne_eq, not_true_eq_false, if_false]
  · intro hen ht
    have hsw : ∀ r, getOAuthToken cfgA.oauth2 fetch = r →
        GetAuthHeader cfgA fetch =
          (match r with
          | .error e => .error (.oauth e)
          | .ok token => .ok ("Authorization", "Bearer " ++ token)) := by
      intro r hr
      unfold GetAuthHeader
      rw [hen, ht, hr]
      rfl
    constructor
    · intro e he
      exact hsw (.error e) he
    · intro t htok
      exact hsw (.ok t) htok

/-- Witness for C5 (amended): against a token server answering 200 with
access_token "tok42", the exchange succeeds and the resolved header is
the bearer header. -/
theorem oauth_token_exchange_witness :
    getOAuthToken oauth2W fetchTokenW = .ok "tok42"
    ∧ GetAuthHeader oauth2AuthCfgW fetchTokenW
      = .ok ("Authorization", "Bearer " ++ "tok42") := by
  have h := oauth_token_exchange oauth2W fetchTokenW oauth2AuthCfgW
  have h1 : getOAuthToken oauth2W fetchTokenW = .ok "tok42" :=
    (h.1 "tok42").mpr ⟨[("access_token", .str "tok42")], rfl, rfl⟩
  exact ⟨h1, ((h.2.2.2.2.2.2 rfl rfl).2) "tok42" h1⟩

theorem dispatchInner_cancel (eps : List Endpoint) :
    ∀ (step k : Nat),
      (step + eps.length ≤ k →
        dispatchInner (some k) eps step = (eps, step + eps.length, false))
      ∧ (step ≤ k → k < step + eps.length →
        dispatchInner (some k) eps step = (eps.take (k - step), k, true)) := by
  induction eps with
  | nil =>
    intro step k
    exact ⟨fun _ => by simp [dispatchInner],
      fun h1 h2 => absurd h2 (by simp only [List.length_nil]; omega)⟩
  | cons e rest ih =>
    intro step k
    constructor
    · intro hle
      simp only [List.length_cons] at hle
      have hobs : cancelObserved (some k) step = false := by
        simp only [cancelObserved, decide_eq_false_iff_not]
        omega
      have hrest := (ih (step + 1) k).1 (by omega)
      have harith : step + 1 + rest.length = step + (rest.length + 1) := by omega
      simp [dispatchInner, hobs, hrest, harith]
    · intro hsk hklt
      simp only [List.length_cons] at hklt
      by_cases hek : step = k
      · subst hek
        have hobs : cancelObserved (some step) step = true := by
          simp [cancelObserved]
        simp [dispatchInner, hobs]
      · have hobs : cancelObserved (some k) step = false := by
          simp only [cancelObserved, decide_eq_false_iff_not]
          omega
        have hrest := (ih (step + 1) k).2 (by omega) (by omega)
        have htake : k - step = (k - (step + 1)) + 1 := by omega
        simp [dispatchInner, hobs, hrest, htake, List.take_succ_cons]

theorem dispatchReps_cancel (eps : List Endpoint) (k : Nat) :
    ∀ (r step : Nat), step ≤ k →
      (step + r * eps.length ≤ k →
        dispatchReps (some k) eps r step = ((List.replicate r eps).flatten, true))
      ∧ (k < step + r * eps.length →
        dispatchReps (some k) eps r step =
          (((List.replicate r eps).flatten).take (k - step), false)) := by
  intro r
  induction r with
  | zero =>
    intro step hsk
    exact ⟨fun _ => by simp [dispatchReps],
      fun h => absurd h (by simp only [Nat.zero_mul, Nat.add_zero]; omega)⟩
  | succ r ih =>
    intro step hsk
    have hmul : (r + 1) * eps.length = eps.length + r * eps.length := by ring
    constructor
    · intro hle
      rw [hmul] at hle
      have hinner := (dispatchInner_cancel eps step k).1 (by omega)
      have hnext := (ih (step + eps.length) (by omega)).1 (by omega)
      simp [dispatchReps, hinner, hnext, List.replicate_succ]
    · intro hgt
      rw [hmul] at hgt
      by_cases hin : k < step + eps.length
      · have hinner := (dispatchInner_cancel eps step k).2 hsk hin
        have hz : k - step - eps.length = 0 := by omega
        simp [dispatchReps, hinner, List.replicate_succ,
          List.take_append_eq_append_take, hz]
      · have hinner := (dispatchInner_cancel eps step k).1 (by omega)
        have hnext := (ih (step + eps.length) (by omega)).2 (by omega)
        have h1 : eps.length ≤ k - step := by omega
        have h2 : k - step - eps.length = k - (step + eps.length) := by omega
        simp [dispatchReps, hinner, hnext, List.replicate_succ,
          List.take_append_eq_append_take, List.take_of_length_le h1, h2]

/-- C7 counterexample: with cancellation observed at the very first
enqueue attempt, the dispatcher returns without reaching `close(jobs)`:
the job queue is NOT closed, unlike after full enumeration. -/
theorem close_queue_on_cancel_counterexample :
    (runDispatcher cfgW (some 0)).queueClosed = false
    ∧ (runDispatcher cfgW none).queueClosed = true := by
  exact ⟨rfl, rfl⟩

/-- C7 (amended): after full enumeration — and only then — the dispatcher
closes the job queue (exactly once, at the single `close(jobs)` site); on
an observed cancellation it stops enqueueing immediately, leaving the
enqueued jobs a prefix of the full enumeration, and returns WITHOUT
closing the job queue. -/
theorem dispatcher_close_and_cancellation (cfg : Config) (k : Nat) :
    (runDispatcher cfg none).queueClosed = true
    ∧ (runDispatcher cfg none).enqueued =
        (List.replicate cfg.probingConfig.totalRequests cfg.probingConfig.endpoints).flatten
    ∧ (cfg.probingConfig.totalRequests * cfg.probingConfig.endpoints.length ≤ k →
        runDispatcher cfg (some k) = runDispatcher cfg none)
    ∧ (k < cfg.probingConfig.totalRequests * cfg.probingConfig.endpoints.length →
        (runDispatcher cfg (some k)).queueClosed = false
        ∧ (runDispatcher cfg (some k)).enqueued =
          ((runDispatcher cfg none).enqueued).take k) := by
  have hnone : runDispatcher cfg none =
      ⟨(List.replicate cfg.probingConfig.totalRequests cfg.probingConfig.endpoints).flatten,
        true⟩ := by
    unfold runDispatcher
    rw [dispatchReps_none]
  refine ⟨by rw [hnone], by rw [hnone], ?_, ?_⟩
  · intro hle
    have h := (dispatchReps_cancel cfg.probingConfig.endpoints k
      cfg.probingConfig.totalRequests 0 (Nat.zero_le k)).1 (by omega)
    unfold runDispatcher
    rw [h, dispatchReps_none]
  · intro hgt
    have h := (dispatchReps_cancel cfg.probingConfig.endpoints k
      cfg.probingConfig.totalRequests 0 (Nat.zero_le k)).2 (by omega)
    unfold runDispatcher
    rw [h, dispatchReps_none]
    simp

/-- Witness for C7 (amended): cancelling the 2×2 run at attempt 3 leaves
the first three jobs enqueued and the queue unclosed. -/
theorem dispatcher_cancellation_witness :
    (runDispatcher cfgW (some 3)).queueClosed = false
    ∧ (runDispatcher cfgW (some 3)).enqueued =
      [endpointGetW, endpointPostW, endpointGetW] := by
  have h := (dispatcher_close_and_cancellation cfgW 3).2.2.2 (by decide)
  refine ⟨h.1, ?_⟩
  rw [h.2]
  decide

/-- C8 counterexample: with 2 repetitions over 2 endpoints the result
channel is created with capacity 2 = TotalRequests, while the maximum
possible job count is 4 — the claimed equality fails. -/
theorem results_capacity_counterexample :
    resultsChannelCapacity cfgW ≠ maxJobCount cfgW := by
  decide

/-- C8 (amended): the result channel is created with capacity equal to
`TotalRequests` (the repetition count R), not R × len(Endpoints); this
equals the maximum possible job count exactly when R = 0 or the run has a
single endpoint. -/
theorem results_capacity (cfg : Config) :
    resultsChannelCapacity cfg = cfg.probingConfig.totalRequests
    ∧ (resultsChannelCapacity cfg = maxJobCount cfg ↔
        cfg.probingConfig.totalRequests = 0
        ∨ cfg.probingConfig.endpoints.length = 1) := by
  refine ⟨rfl, ?_⟩
  unfold resultsChannelCapacity maxJobCount
  constructor
  · intro h
    by_cases hR : cfg.probingConfig.totalRequests = 0
    · exact Or.inl hR
    · refine Or.inr ?_
      have hR0 : 0 < cfg.probingConfig.totalRequests := Nat.pos_of_ne_zero hR
      have hmul : cfg.probingConfig.totalRequests * 1 =
          cfg.probingConfig.totalRequests * cfg.probingConfig.endpoints.length := by
        rw [Nat.mul_one]
        exact h
      exact (Nat.eq_of_mul_eq_mul_left hR0 hmul).symm
  · rintro (h | h)
    · rw [h]; simp
    · rw [h]; simp

/-- Witness for C8 (amended): on the 2-endpoint fixture the capacity is
TotalRequests and differs from the maximum job count. -/
theorem results_capacity_witness :
    resultsChannelCapacity cfgW = cfgW.probingConfig.totalRequests
    ∧ resultsChannelCapacity cfgW ≠ maxJobCount cfgW := by
  have h := results_capacity cfgW
  refine ⟨h.1, fun heq => ?_⟩
  rcases h.2.mp heq with h0 | h1
  · exact absurd h0 (by decide)
  · exact absurd h1 (by decide)

/-- A global auth policy with an unrecognized type string. -/
def badAuthW : AuthConfig := ⟨true, "jwt", ⟨"", ""⟩, ⟨"", ""⟩, emptyOAuth2⟩

/-- One endpoint without override, two repetitions, unrecognized global
auth type. -/
def cfgBadAuthW : Config := ⟨badAuthW, ⟨1, 2, 1000, noDelayW, [endpointGetW]⟩⟩

/-- Header resolution hits the `default` branch of `GetAuthHeader` for an
enabled policy of unrecognized type. -/
theorem getHeaders_unsupported (e : Endpoint) (g : AuthConfig)
    (fetch : TokenRequest → TokenHTTPOutcome)
    (hnone : e.authConfig = none) (hen : g.enabled = true)
    (h1 : g.type ≠ "api_key") (h2 : g.type ≠ "basic") (h3 : g.type ≠ "oauth2") :
    getHeadersForEndpoint e g fetch = .error (.unsupportedAuthType g.type) := by
  unfold getHeadersForEndpoint effectiveAuthConfig
  simp [hnone, hen, GetAuthHeader, h1, h2, h3]

/-- Processing a job list on which every job fails adds the list length
to the failure counter and emits no samples. -/
theorem processJobsFrom_all_fail (cfg : Config) (envs : Nat → JobEnv) :
    ∀ (jobs : List Endpoint),
    (∀ e ∈ jobs, ∀ i, processJob cfg e (envs i) = some (false, [])) →
    ∀ (i : Nat) (c : Counters) (samples : List Nat),
    processJobsFrom cfg envs jobs i c samples =
      some (⟨c.successCount, c.failureCount + jobs.length⟩, samples) := by
  intro jobs
  induction jobs with
  | nil =>
    intro _ i c samples
    simp [processJobsFrom]
  | cons e rest ih =>
    intro hall i c samples
    have he := hall e (List.mem_cons_self e rest) i
    simp only [processJobsFrom]
    rw [he]
    show processJobsFrom cfg envs rest (i + 1)
      ⟨c.successCount, c.failureCount + 1⟩ (samples ++ []) = _
    rw [List.append_nil,
      ih (fun e' he' i' => hall e' (List.mem_cons_of_mem e he') i')]
    simp only [List.length_cons, Option.some.injEq, Prod.mk.injEq, Counters.mk.injEq,
      eq_self_iff_true, true_and, and_true]
    omega

/-- C6 counterexample: with an enabled global policy of unrecognized type
"jwt" and no endpoint override, the run is NOT process-fatal: both jobs
are dispatched and processed (each failing auth resolution), and the run
completes normally with a report — rather than surfacing immediately with
no jobs run. -/
theorem unknown_auth_type_counterexample :
    runProbeNoCancel cfgBadAuthW (fun _ => envOkW)
      = some ([endpointGetW, endpointGetW], ⟨0, 2⟩, [], .noSuccessfulRequests 2)
    ∧ (runDispatcher cfgBadAuthW none).enqueued.length = 2 := by
  constructor <;> decide

/-- C6 (amended): an unrecognized global AuthPolicy type, never
overridden, is a per-job error, not process-fatal: every job is still
dispatched and processed, each one fails auth resolution and increments
the failure counter, no samples are emitted, and the run completes with
the "no successful requests" report — the pool and the dispatcher are
never stopped. -/
theorem unknown_auth_type_per_job (cfg : Config) (envs : Nat → JobEnv)
    (hen : cfg.auth.enabled = true)
    (h1 : cfg.auth.type ≠ "api_key") (h2 : cfg.auth.type ≠ "basic")
    (h3 : cfg.auth.type ≠ "oauth2")
    (hover : ∀ e ∈ cfg.probingConfig.endpoints, e.authConfig = none) :
    runProbeNoCancel cfg envs =
      some ((runDispatcher cfg none).enqueued,
        ⟨0, (runDispatcher cfg none).enqueued.length⟩, [],
        .noSuccessfulRequests (runDispatcher cfg none).enqueued.length) := by
  have hmem : ∀ e ∈ (runDispatcher cfg none).enqueued,
      e ∈ cfg.probingConfig.endpoints := by
    intro e he
    have hd : (runDispatcher cfg none).enqueued =
        (List.replicate cfg.probingConfig.totalRequests
          cfg.probingConfig.endpoints).flatten := by
      unfold runDispatcher
      rw [dispatchReps_none]
    rw [hd, List.mem_flatten] at he
    rcases he with ⟨l, hl, hel⟩
    rw [List.eq_of_mem_replicate hl] at hel
    exact hel
  have hall : ∀ e ∈ (runDispatcher cfg none).enqueued, ∀ i,
      processJob cfg e (envs i) = some (false, []) := by
    intro e he i
    unfold processJob
    rw [getHeaders_unsupported e cfg.auth (envs i).fetch
      (hover e (hmem e he)) hen h1 h2 h3]
  simp only [runProbeNoCancel, processJobs]
  rw [processJobsFrom_all_fail cfg envs _ hall 0 ⟨0, 0⟩ []]
  simp [finalReport, aggregateSamples]

/-- Witness for C6 (amended): the concrete unrecognized-type run. -/
theorem unknown_auth_type_witness :
    runProbeNoCancel cfgBadAuthW (fun _ => envOkW)
      = some ((runDispatcher cfgBadAuthW none).enqueued,
        ⟨0, (runDispatcher cfgBadAuthW none).enqueued.length⟩, [],
        .noSuccessfulRequests (runDispatcher cfgBadAuthW none).enqueued.length) :=
  unknown_auth_type_per_job cfgBadAuthW (fun _ => envOkW) rfl
    (by decide) (by decide) (by decide) (by decide)

theorem aggregateSamples_eq (samples : List Nat) :
    aggregateSamples samples = (samples.sum, samples.length) := by
  have hgen : ∀ (l : List Nat) (a b : Nat),
      l.foldl (fun acc d => (acc.1 + d, acc.2 + 1)) (a, b) = (a + l.sum, b + l.length) := by
    intro l
    induction l with
    | nil => intro a b; simp
    | cons x xs ih =>
      intro a b
      rw [List.foldl_cons, ih (a + x) (b + 1)]
      simp only [List.sum_cons, List.length_cons, Prod.mk.injEq]
      omega
  have := hgen samples 0 0
  simpa using this

/-- C10: finalization accumulates the count and the sum of the consumed
samples, computes average = sum / count only when the sample count is
positive, and a run with zero successful samples still produces a report —
the "no successful requests" one, which carries no average and is reached
without any division. -/
theorem average_only_when_samples (samples : List Nat) (c : Counters) :
    aggregateSamples samples = (samples.sum, samples.length)
    ∧ (samples.length = 0 →
        finalReport samples c = .noSuccessfulRequests c.failureCount)
    ∧ (0 < samples.length →
        finalReport samples c = .completed samples.length c.successCount
          c.failureCount (samples.sum / samples.length)) := by
  refine ⟨aggregateSamples_eq samples, ?_, ?_⟩
  · intro hz
    unfold finalReport
    rw [aggregateSamples_eq samples, hz]
    rfl
  · intro hpos
    unfold finalReport
    rw [aggregateSamples_eq samples]
    simp only [hpos, if_true]

/-- Witness for C10: an empty sample list reports "no successful
requests" without an average; samples [4, 6] report average 5. -/
theorem average_only_when_samples_witness :
    finalReport [] ⟨0, 3⟩ = .noSuccessfulRequests 3
    ∧ finalReport [4, 6] ⟨2, 1⟩ = .completed 2 2 1 5 :=
  ⟨(average_only_when_samples [] ⟨0, 3⟩).2.1 rfl,
   (average_only_when_samples [4, 6] ⟨2, 1⟩).2.2 (by decide)⟩

end Enchante
